import Mathlib

/-!
Shallow embedding of the Dolly repository's stem-separation pipeline
(`src/audioshake.ts`, `src/upload.ts` plus the CLI main module).

JavaScript strings are modelled as `List Char`; JS truthiness of optional
strings and of optional arrays is modelled explicitly.  The network is
modelled by a mock service: the task-creation response plus a function from
poll index to poll response, each poll response also carrying the wall-clock
time the GET took.  The polling loop of `separateStems` is embedded as a
fuel-indexed recursion; `none` means the fuel ran out while the loop was
still polling.
-/

set_option linter.unusedVariables false

namespace Dolly

/-- JavaScript strings, modelled structurally as lists of characters. -/
abbrev JSString := List Char

/-- Embed a Lean string literal as a `JSString`. -/
def js (s : String) : JSString := s.data

/-- JS `String.prototype.startsWith`: `p` is a prefix of `s`. -/
def jsStartsWith (s p : JSString) : Bool := decide (p <+: s)

/-- JS `String.prototype.replace` with a plain-string pattern: replaces the
first occurrence of `pat` (if any) by `rep`, leaving the rest unchanged. -/
def jsReplaceFirst (pat rep : JSString) : JSString → JSString
  | [] => if pat <+: ([] : JSString) then rep else []
  | c :: cs =>
    if pat <+: c :: cs then rep ++ (c :: cs).drop pat.length
    else c :: jsReplaceFirst pat rep cs

/-- JS `a || b` on an optional string `a` (as in `status.error || 'Unknown
error'`): `undefined` and the empty string are falsy. -/
def jsOrString (v : Option String) (d : String) : String :=
  match v with
  | none => d
  | some s => if s = "" then d else s

/-- JS `!v` on an optional string `v` (as in `if (!AUDIOSHAKE_API_KEY)`):
true exactly for `undefined` and the empty string. -/
def jsFalsyStr : Option String → Bool
  | none => true
  | some s => s == ""

/-- The `status` field of a task-status response (`TaskStatus` in
`audioshake.ts`). -/
inductive Status
  | pending
  | processing
  | completed
  | failed
  | cancelled
deriving DecidableEq, Repr

/-- `StemResult` from `audioshake.ts`: a stem label and a map from output
format to download URL. -/
structure StemResult where
  model : String
  urls : List (String × String)
deriving DecidableEq, Repr

/-- `TaskStatus` from `audioshake.ts`: the JSON body of a status poll.
`stems` is the optional `stems?: StemResult[]` field (`none` = field
absent), `error` the optional `error?: string` field. -/
structure TaskStatus where
  id : String
  status : Status
  stems : Option (List StemResult)
  error : Option String
deriving DecidableEq, Repr

/-- The errors `separateStems` can throw, tagged by the `throw` site in
`audioshake.ts` (each carries the data interpolated into the message). -/
inductive SepError
  | preconditionHttps
  | submissionFailed (statusCode : Nat) (body : String)
  | statusCheckFailed (statusCode : Nat) (body : String)
  | separationFailed (message : String)
  | separationTimeout
deriving DecidableEq, Repr

/-- Result of a `separateStems` run: the returned stem list, or the error
thrown. -/
inductive SepOutcome
  | ok (stems : List StemResult)
  | err (e : SepError)
deriving DecidableEq, Repr

/-- One mocked GET response of the status poll: HTTP success flag and code,
raw body text (used for error reporting on non-2xx), the decoded
`TaskStatus` (meaningful when `ok`), and how long the GET took in
milliseconds of wall-clock time. -/
structure PollResponse where
  ok : Bool
  statusCode : Nat
  bodyText : String
  task : TaskStatus
  fetchMs : Nat
deriving DecidableEq, Repr

/-- `pollInterval` constant of `separateStems`: 5000 ms. -/
def pollIntervalMs : Nat := 5000

/-- `timeout` constant of `separateStems`: 600000 ms (10 minutes). -/
def timeoutMs : Nat := 600000

/-- What one iteration of the polling loop decides. -/
inductive StepOutcome
  | done (outcome : SepOutcome)
  | again
deriving DecidableEq, Repr

/-- The body of one polling iteration of `separateStems`, after the 5 s
sleep and the GET: the source's check order is (1) non-2xx response throws,
(2) `status.status === 'completed' && status.stems` returns `status.stems`
(JS truthiness: the check passes whenever the `stems` field is present,
even as an empty array), (3) `status.status === 'failed'` throws with
`status.error || 'Unknown error'`, (4) `Date.now() - startTime > timeout`
throws the timeout, (5) otherwise loop again.  `elapsedMs` is the
wall-clock time since submission at the moment of the checks. -/
def pollStep (r : PollResponse) (elapsedMs : Nat) : StepOutcome :=
  if r.ok = false then
    .done (.err (.statusCheckFailed r.statusCode r.bodyText))
  else if r.task.status = .completed ∧ r.task.stems.isSome = true then
    .done (.ok (r.task.stems.getD []))
  else if r.task.status = .failed then
    .done (.err (.separationFailed
      ("Stem separation failed: " ++ jsOrString r.task.error "Unknown error")))
  else if timeoutMs < elapsedMs then
    .done (.err .separationTimeout)
  else
    .again

/-- Result of the polling loop: outcome, number of GETs issued, and
wall-clock time since submission when the loop ended. -/
structure LoopResult where
  outcome : SepOutcome
  polls : Nat
  elapsedMs : Nat
deriving DecidableEq, Repr

/-- The `while (true)` polling loop of `separateStems`, with fuel.  Each
iteration first sleeps `pollIntervalMs`, then issues the GET for poll index
`i` (taking `fetchMs` of wall-clock time), then runs the checks of
`pollStep`.  `none` means the fuel ran out while the loop was still
polling. -/
def pollLoop (respond : Nat → PollResponse) (fuel i elapsed : Nat) :
    Option LoopResult :=
  match fuel with
  | 0 => none
  | f + 1 =>
    let r := respond i
    let e2 := elapsed + pollIntervalMs + r.fetchMs
    match pollStep r e2 with
    | .done out => some ⟨out, i + 1, e2⟩
    | .again => pollLoop respond f (i + 1) e2

/-- The mocked task-creation (POST) response. -/
structure CreateResponse where
  ok : Bool
  statusCode : Nat
  bodyText : String
  taskId : String

/-- A mocked remote service: the POST response and the GET response for
each poll index. -/
structure MockService where
  create : CreateResponse
  respond : Nat → PollResponse

/-- Result of a whole `separateStems` run: outcome plus the number of POST
and GET requests issued and the elapsed wall-clock time. -/
structure RunResult where
  outcome : SepOutcome
  posts : Nat
  gets : Nat
  elapsedMs : Nat
deriving DecidableEq, Repr

/-- `separateStems` from `audioshake.ts` against a mocked service: first the
synchronous HTTPS-precondition check (before any request), then the POST
creating the task (non-2xx throws immediately), then the polling loop. -/
def separateStems (audioUrl : JSString) (apiKey : String) (svc : MockService)
    (fuel : Nat) : Option RunResult :=
  if jsStartsWith audioUrl (js "https://") = true then
    if svc.create.ok = true then
      match pollLoop svc.respond fuel 0 0 with
      | some lr => some ⟨lr.outcome, 1, lr.polls, lr.elapsedMs⟩
      | none => none
    else
      some ⟨.err (.submissionFailed svc.create.statusCode svc.create.bodyText), 1, 0, 0⟩
  else
    some ⟨.err .preconditionHttps, 0, 0, 0⟩

/-- The scheme upgrade applied to the uploaded URL in the main module:
`if (audioUrl.startsWith('http://')) audioUrl = audioUrl.replace('http://', 'https://')`. -/
def upgradeHttp (url : JSString) : JSString :=
  if jsStartsWith url (js "http://") = true then
    jsReplaceFirst (js "http://") (js "https://") url
  else url

/-- The URL validation block of the main module after `uploadFileTemporary`:
upgrade a plain-HTTP scheme, then reject anything that still does not start
with `https://`. -/
def resolveAudioUrl (url : JSString) : Except String JSString :=
  let upgraded := upgradeHttp url
  if jsStartsWith upgraded (js "https://") = true then Except.ok upgraded
  else Except.error "Invalid URL format - AudioShake requires HTTPS URLs"

/-- The pipeline stages of the main module that can start running. -/
inductive Stage
  | convert
  | upload
  | separate
deriving DecidableEq, Repr

/-- The outcomes of the external effects of one main-module run: what
`convertToWav` resolves or rejects with, what `uploadFileTemporary` returns
or throws, the value of `process.env.AUDIOSHAKE_API_KEY`, and what the
`separateStems` call would produce if reached. -/
structure PipelineEnv where
  convertResult : Except String String
  uploadResult : Except String JSString
  audioshakeApiKey : Option String
  separation : SepOutcome

/-- Observable result of a main-module run: the process exit code and the
pipeline stages that started running, in order. -/
structure PipelineRun where
  exitCode : Nat
  stages : List Stage
deriving DecidableEq, Repr

/-- The main module of `audioshake.ts` from the conversion stage on
(lines 290-355): convert, then upload and validate/upgrade the URL, then
read and check `AUDIOSHAKE_API_KEY`, then call `separateStems`; every
failure exits with code 1, a completed run exits 0. -/
def mainPipeline (env : PipelineEnv) : PipelineRun :=
  match env.convertResult with
  | .error _ => ⟨1, [.convert]⟩
  | .ok _ =>
    match env.uploadResult with
    | .error _ => ⟨1, [.convert, .upload]⟩
    | .ok raw =>
      match resolveAudioUrl raw with
      | .error _ => ⟨1, [.convert, .upload]⟩
      | .ok _ =>
        if jsFalsyStr env.audioshakeApiKey = true then ⟨1, [.convert, .upload]⟩
        else
          match env.separation with
          | .err _ => ⟨1, [.convert, .upload, .separate]⟩
          | .ok _ => ⟨0, [.convert, .upload, .separate]⟩

/-- The last path component as seen by node's posix `extname`: trailing
slashes are skipped, then everything after the last remaining `/` is the
component. -/
def lastComponent (path : JSString) : JSString :=
  let trimmed := (path.reverse.dropWhile (fun c => c == '/')).reverse
  (trimmed.reverse.takeWhile (fun c => c != '/')).reverse

/-- Node `path.extname` (posix): the substring of the last path component
from its last `.` to its end; empty when the component has no dot, when its
only leading character is the dot, or when the component is exactly `..`. -/
def extnameOf (path : JSString) : JSString :=
  let b := lastComponent path
  let afterDotRev := b.reverse.takeWhile (fun c => c != '.')
  if afterDotRev.length == b.length then []
  else if b.length - afterDotRev.length - 1 == 0 then []
  else if b == ['.', '.'] then []
  else '.' :: afterDotRev.reverse

/-- JS `String.prototype.toLowerCase`, on the ASCII alphabet used by the
extension allow-list. -/
def jsToLowerCase (s : JSString) : JSString := s.map Char.toLower

/-- `SUPPORTED_AUDIO_EXTENSIONS` from the main module: the `Set` of dotted,
lowercase extensions. -/
def SUPPORTED_AUDIO_EXTENSIONS : List JSString :=
  [js ".mp3", js ".wav", js ".flac", js ".aac", js ".ogg",
   js ".m4a", js ".wma", js ".aiff", js ".alac", js ".opus"]

/-- `isSupportedAudioFile` from the main module:
`SUPPORTED_AUDIO_EXTENSIONS.has(extname(filePath).toLowerCase())`. -/
def isSupportedAudioFile (filePath : JSString) : Bool :=
  decide (jsToLowerCase (extnameOf filePath) ∈ SUPPORTED_AUDIO_EXTENSIONS)

/-- The bare extension names listed by the specification (mp3, wav, flac,
aac, ogg, m4a, wma, aiff, alac, opus). -/
def specSupportedNames : List JSString :=
  [js "mp3", js "wav", js "flac", js "aac", js "ogg",
   js "m4a", js "wma", js "aiff", js "alac", js "opus"]

/-- Modelled from the spec sentence behind C9: the file path's extension,
compared case-insensitively, is one of the ten listed audio extensions. -/
def specExtensionSupported (filePath : JSString) : Prop :=
  ∃ e ∈ specSupportedNames, jsToLowerCase (extnameOf filePath) = '.' :: e

/-! Concrete fixtures used by counterexamples and witnesses. -/

/-- A successful (2xx) task-creation response. -/
def okCreate : CreateResponse := ⟨true, 200, "", "task-1"⟩

/-- A 2xx poll response with status `processing` and instantaneous GET. -/
def processingResponse : PollResponse :=
  ⟨true, 200, "", ⟨"task-1", .processing, none, none⟩, 0⟩

/-- A 2xx poll response: status `completed` with the `stems` field present
but equal to the empty array. -/
def completedEmptyStems : PollResponse :=
  ⟨true, 200, "", ⟨"task-1", .completed, some [], none⟩, 0⟩

/-- A stem result named `vocals` with one wav download URL. -/
def stemVocals : StemResult := ⟨"vocals", [("wav", "https://cdn.example/vocals.wav")]⟩

/-- A 2xx poll response: status `completed` with one stem attached. -/
def completedOneStem : PollResponse :=
  ⟨true, 200, "", ⟨"task-1", .completed, some [stemVocals], none⟩, 0⟩

/-- A 2xx poll response: status `completed` with the `stems` field absent. -/
def completedNoStems : PollResponse :=
  ⟨true, 200, "", ⟨"task-1", .completed, none, none⟩, 0⟩

/-- A 2xx poll response with status `cancelled`. -/
def cancelledResponse : PollResponse :=
  ⟨true, 200, "", ⟨"task-1", .cancelled, none, none⟩, 0⟩

/-- A 2xx poll response: status `failed` with error text `bad audio`. -/
def failedBadAudio : PollResponse :=
  ⟨true, 200, "", ⟨"task-1", .failed, none, some "bad audio"⟩, 0⟩

/-- A 2xx poll response: status `failed` whose `error` field is present but
is the empty string. -/
def failedEmptyError : PollResponse :=
  ⟨true, 200, "", ⟨"task-1", .failed, none, some ""⟩, 0⟩

/-- A 2xx poll response: status `failed` with error text `bad audio`,
where the GET itself took 695000 ms, so the loop sees it 700000 ms after
submission. -/
def failedLateResponse : PollResponse :=
  ⟨true, 200, "", ⟨"task-1", .failed, none, some "bad audio"⟩, 695000⟩

/-- A service whose every poll answers `completed` with an empty `stems`
array. -/
def svcCompletedEmpty : MockService := ⟨okCreate, fun _ => completedEmptyStems⟩

/-- A service whose every poll answers `completed` with one stem. -/
def svcImmediate : MockService := ⟨okCreate, fun _ => completedOneStem⟩

/-- A service whose every poll answers `cancelled`. -/
def svcCancelled : MockService := ⟨okCreate, fun _ => cancelledResponse⟩

/-- A service whose first poll already takes until 700000 ms after
submission and answers `failed` with error text `bad audio`. -/
def svcFailedLate : MockService := ⟨okCreate, fun _ => failedLateResponse⟩

/-- The mocked service of C6: `processing` for the first `n` polls, then
`completed` with exactly one stem, every GET instantaneous. -/
def procThenDone (n : Nat) (stem : StemResult) : Nat → PollResponse :=
  fun i => if i < n then processingResponse
           else ⟨true, 200, "", ⟨"task-1", .completed, some [stem], none⟩, 0⟩

/-- The C6 service packaged with a successful creation response. -/
def svcProcThenDone (n : Nat) (stem : StemResult) : MockService :=
  ⟨okCreate, procThenDone n stem⟩

/-- The pipeline environment of the C4 counterexample: conversion and
upload both succeed (with an HTTPS URL), but `AUDIOSHAKE_API_KEY` is
absent. -/
def envNoKey : PipelineEnv :=
  { convertResult := Except.ok "converted/song.wav"
  , uploadResult := Except.ok (js "https://host.example/song.wav")
  , audioshakeApiKey := none
  , separation := .ok [stemVocals] }

/-- A pipeline environment whose upload returns a non-HTTP(S) URL and whose
other effects would succeed. -/
def envFtpUrl : PipelineEnv :=
  { convertResult := Except.ok "converted/song.wav"
  , uploadResult := Except.ok (js "ftp://host.example/song.wav")
  , audioshakeApiKey := some "secret"
  , separation := .ok [stemVocals] }

/-! Helper lemmas. -/

/-- Unfolding lemma: the polling loop with no fuel left. -/
theorem pollLoop_zero (respond : Nat → PollResponse) (i elapsed : Nat) :
    pollLoop respond 0 i elapsed = none := rfl

/-- Unfolding lemma: one iteration of the polling loop. -/
theorem pollLoop_succ (respond : Nat → PollResponse) (f i elapsed : Nat) :
    pollLoop respond (f + 1) i elapsed =
      (match pollStep (respond i) (elapsed + pollIntervalMs + (respond i).fetchMs) with
       | .done out => some ⟨out, i + 1, elapsed + pollIntervalMs + (respond i).fetchMs⟩
       | .again =>
         pollLoop respond f (i + 1) (elapsed + pollIntervalMs + (respond i).fetchMs)) := rfl

/-- `jsReplaceFirst` on a string that starts with the pattern replaces that
leading occurrence. -/
theorem jsReplaceFirst_of_isPre (pat rep s : JSString) (h : pat <+: s) :
    jsReplaceFirst pat rep s = rep ++ s.drop pat.length := by
  cases s with
  | nil =>
    have hp : pat = [] := List.prefix_nil.mp h
    subst hp
    simp [jsReplaceFirst]
  | cons c cs =>
    unfold jsReplaceFirst
    rw [if_pos h]

/-! Claim C1. -/

/-- Claim C1, counterexample: a first poll whose status is `completed` with
`stems` present but equal to the empty array makes `separateStems` return a
success with empty results immediately (after one poll), instead of
continuing to poll — the JS truthiness check `status.stems` accepts an
empty array, so a non-empty result set is not required. -/
theorem c1_counterexample :
    completedEmptyStems.task.status = .completed ∧
    completedEmptyStems.task.stems = some [] ∧
    separateStems (js "https://host.example/song.wav") "key" svcCompletedEmpty 1 =
      some ⟨.ok [], 1, 1, 5000⟩ := by
  refine ⟨rfl, rfl, by decide⟩

/-- Claim C1 (amended): the polling loop terminates successfully exactly
when the status is `completed` and the `stems` field is present in the same
response — even as an empty array; when the status is `completed` but the
`stems` field is absent and the budget has not expired, the loop continues
polling. -/
theorem c1_amended (r : PollResponse) (e : Nat)
    (hok : r.ok = true) (hc : r.task.status = .completed) :
    (∀ l, r.task.stems = some l → pollStep r e = .done (.ok l)) ∧
    (r.task.stems = none → e ≤ timeoutMs → pollStep r e = .again) := by
  constructor
  · intro l hl
    simp [pollStep, hok, hc, hl]
  · intro hn he
    simp [pollStep, hok, hc, hn]
    omega

/-- Claim C1, witness: a `completed` response with one stem terminates the
loop with that stem; a `completed` response without the `stems` field
continues polling. -/
theorem c1_witness :
    pollStep completedOneStem 5000 = .done (.ok [stemVocals]) ∧
    pollStep completedNoStems 5000 = .again :=
  ⟨(c1_amended completedOneStem 5000 rfl rfl).1 [stemVocals] rfl,
   (c1_amended completedNoStems 5000 rfl rfl).2 rfl (by decide)⟩

/-! Claim C2. -/

/-- Claim C2, counterexample: a poll response with status `cancelled` does
not stop the loop — the iteration decides to poll again, and a service that
always answers `cancelled` is still being polled after 5 polls (no error
signalled), because no branch of `separateStems` handles `cancelled`. -/
theorem c2_counterexample :
    pollStep cancelledResponse 5000 = .again ∧
    separateStems (js "https://host.example/song.wav") "key" svcCancelled 5 = none := by
  refine ⟨by decide, by decide⟩

/-- Claim C2 (amended): `cancelled` is not terminal for the polling loop:
within the time budget a `cancelled` response makes the loop continue
polling; such a run only ends when the 600 s timeout fires. -/
theorem c2_amended (r : PollResponse) (e : Nat)
    (hok : r.ok = true) (hc : r.task.status = .cancelled) :
    (e ≤ timeoutMs → pollStep r e = .again) ∧
    (timeoutMs < e → pollStep r e = .done (.err .separationTimeout)) := by
  constructor
  · intro he
    simp [pollStep, hok, hc]
    omega
  · intro he
    simp [pollStep, hok, hc, he]

/-- Claim C2, witness: the amended behaviour at a concrete `cancelled`
response, within and beyond the budget. -/
theorem c2_witness :
    pollStep cancelledResponse 6000 = .again ∧
    pollStep cancelledResponse 700000 = .done (.err .separationTimeout) :=
  ⟨(c2_amended cancelledResponse 6000 rfl rfl).1 (by decide),
   (c2_amended cancelledResponse 700000 rfl rfl).2 (by decide)⟩

/-! Claim C3. -/

/-- Claim C3, counterexample: a run whose elapsed time since submission is
700000 ms (beyond the 600 s budget) at its first poll does not terminate
with the timeout error when that poll reports status `failed` — the
`failed` branch precedes the timeout check, so the run ends with
`SeparationFailed`, contradicting "terminates with the SeparationTimeout
error regardless of the current status". -/
theorem c3_counterexample :
    timeoutMs < 700000 ∧
    separateStems (js "https://host.example/song.wav") "key" svcFailedLate 1 =
      some ⟨.err (.separationFailed "Stem separation failed: bad audio"), 1, 1, 700000⟩ := by
  refine ⟨by decide, by decide⟩

/-- Claim C3 (amended): once elapsed time since submission exceeds the
600 s budget, the polling loop terminates at that poll — never continuing —
and it terminates with `SeparationTimeout` whenever the current 2xx
response is neither `completed`-with-stems nor `failed` (in particular for
`processing`); a response that is itself terminal takes its own branch
because those checks precede the timeout check. -/
theorem c3_amended :
    (∀ (r : PollResponse) (e : Nat), timeoutMs < e → pollStep r e ≠ .again) ∧
    (∀ (r : PollResponse) (e : Nat), r.ok = true → timeoutMs < e →
      ¬(r.task.status = .completed ∧ r.task.stems.isSome = true) →
      r.task.status ≠ .failed →
      pollStep r e = .done (.err .separationTimeout)) := by
  constructor
  · intro r e ht h
    unfold pollStep at h
    split_ifs at h
  · intro r e hok ht hnc hnf
    simp [pollStep, hok, hnc, hnf, ht]

/-- Claim C3, witness: with status `processing` and 700000 ms elapsed the
loop neither continues nor succeeds: it terminates with the timeout. -/
theorem c3_witness :
    pollStep processingResponse 700000 = .done (.err .separationTimeout) ∧
    pollStep processingResponse 700000 ≠ .again :=
  ⟨c3_amended.2 processingResponse 700000 rfl (by decide) (by decide) (by decide),
   c3_amended.1 processingResponse 700000 (by decide)⟩

/-! Claim C5. -/

/-- Claim C5 (confirmed): for every `audioUrl` that does not start with
`https://`, `separateStems` fails with the synchronous precondition error
and issues no request at all: zero POSTs and zero GETs. -/
theorem c5_https_precondition (audioUrl : JSString) (apiKey : String)
    (svc : MockService) (fuel : Nat)
    (h : jsStartsWith audioUrl (js "https://") = false) :
    separateStems audioUrl apiKey svc fuel = some ⟨.err .preconditionHttps, 0, 0, 0⟩ := by
  unfold separateStems
  rw [if_neg (by simp [h])]

/-- Claim C5, witness: a concrete plain-HTTP URL is rejected without any
request even against a service that would answer successfully. -/
theorem c5_witness :
    separateStems (js "http://host.example/song.wav") "key" svcImmediate 1 =
      some ⟨.err .preconditionHttps, 0, 0, 0⟩ :=
  c5_https_precondition _ _ _ _ (by decide)

/-! Claim C7. -/

/-- Claim C7, counterexample: a `failed` response whose `error` field is
present but is the empty string produces the generic message, not the
service-provided (empty) text — JS `||` treats the empty string as falsy,
so "generic only when the field is absent" does not hold. -/
theorem c7_counterexample :
    failedEmptyError.task.error = some "" ∧
    pollStep failedEmptyError 5000 =
      .done (.err (.separationFailed "Stem separation failed: Unknown error")) := by
  refine ⟨rfl, by decide⟩

/-- Claim C7 (amended): a `failed` response terminates the loop with
`SeparationFailed` whose message is `Stem separation failed: ` followed by
the service-provided error text when that text is present and non-empty,
and by `Unknown error` when the `error` field is absent or empty. -/
theorem c7_amended (r : PollResponse) (e : Nat)
    (hok : r.ok = true) (hf : r.task.status = .failed) :
    pollStep r e = .done (.err (.separationFailed
      ("Stem separation failed: " ++ jsOrString r.task.error "Unknown error"))) ∧
    (∀ s, r.task.error = some s → s ≠ "" → jsOrString r.task.error "Unknown error" = s) ∧
    ((r.task.error = none ∨ r.task.error = some "") →
      jsOrString r.task.error "Unknown error" = "Unknown error") := by
  refine ⟨?_, ?_, ?_⟩
  · simp [pollStep, hok, hf]
  · intro s hs hne
    simp [jsOrString, hs, hne]
  · rintro (hn | hn) <;> simp [jsOrString, hn]

/-- Claim C7, witness: a `failed` response with error text `bad audio`
terminates with `SeparationFailed` carrying that text. -/
theorem c7_witness :
    pollStep failedBadAudio 5000 =
      .done (.err (.separationFailed "Stem separation failed: bad audio")) := by
  have h := (c7_amended failedBadAudio 5000 rfl rfl).1
  have e1 : jsOrString failedBadAudio.task.error "Unknown error" = "bad audio" := by decide
  rw [e1] at h
  have e2 : "Stem separation failed: " ++ "bad audio" = "Stem separation failed: bad audio" := by
    decide
  rw [e2] at h
  exact h

/-! Claim C4. -/

/-- Claim C4, counterexample: with `AUDIOSHAKE_API_KEY` absent and every
other effect succeeding, the run does exit with status 1 — but only after
the conversion and upload stages have both run, because the key is read and
checked between the upload block and the `separateStems` call, not at
startup. -/
theorem c4_counterexample :
    envNoKey.audioshakeApiKey = none ∧
    (mainPipeline envNoKey).exitCode = 1 ∧
    Stage.convert ∈ (mainPipeline envNoKey).stages ∧
    Stage.upload ∈ (mainPipeline envNoKey).stages := by
  refine ⟨rfl, by decide, by decide, by decide⟩

/-- Claim C4 (amended): if `AUDIOSHAKE_API_KEY` is absent (or empty, which
JS treats as falsy too), the program exits with status 1 and the
stem-separation stage never runs — but the check happens only after the
conversion and upload stages, not at startup. -/
theorem c4_amended (env : PipelineEnv) (h : jsFalsyStr env.audioshakeApiKey = true) :
    (mainPipeline env).exitCode = 1 ∧ Stage.separate ∉ (mainPipeline env).stages := by
  cases hc : env.convertResult with
  | error m =>
    have hm : mainPipeline env = ⟨1, [Stage.convert]⟩ := by simp [mainPipeline, hc]
    rw [hm]
    exact ⟨rfl, by decide⟩
  | ok wav =>
    cases hu : env.uploadResult with
    | error m =>
      have hm : mainPipeline env = ⟨1, [Stage.convert, Stage.upload]⟩ := by
        simp [mainPipeline, hc, hu]
      rw [hm]
      exact ⟨rfl, by decide⟩
    | ok raw =>
      cases hr : resolveAudioUrl raw with
      | error m =>
        have hm : mainPipeline env = ⟨1, [Stage.convert, Stage.upload]⟩ := by
          simp [mainPipeline, hc, hu, hr]
        rw [hm]
        exact ⟨rfl, by decide⟩
      | ok u =>
        have hm : mainPipeline env = ⟨1, [Stage.convert, Stage.upload]⟩ := by
          simp [mainPipeline, hc, hu, hr, h]
        rw [hm]
        exact ⟨rfl, by decide⟩

/-- Claim C4, witness: the amended behaviour at the concrete keyless
environment. -/
theorem c4_witness :
    (mainPipeline envNoKey).exitCode = 1 ∧ Stage.separate ∉ (mainPipeline envNoKey).stages :=
  c4_amended envNoKey (by decide)

/-! Claim C8. -/

/-- Claim C8 (confirmed): any uploaded URL beginning with `http://` is
upgraded string-wise to begin with `https://` with the remainder unchanged,
and for any uploaded URL that still does not begin with `https://` after
the upgrade, the run exits with status 1 before the stem-separation stage
runs. -/
theorem c8_url_upgrade :
    (∀ rest : JSString, upgradeHttp (js "http://" ++ rest) = js "https://" ++ rest) ∧
    (∀ (env : PipelineEnv) (raw : JSString), env.uploadResult = Except.ok raw →
      jsStartsWith (upgradeHttp raw) (js "https://") = false →
      (mainPipeline env).exitCode = 1 ∧ Stage.separate ∉ (mainPipeline env).stages) := by
  constructor
  · intro rest
    unfold upgradeHttp
    rw [if_pos (show jsStartsWith (js "http://" ++ rest) (js "http://") = true by
      simp [jsStartsWith, List.prefix_append])]
    rw [jsReplaceFirst_of_isPre _ _ _ (List.prefix_append _ _), List.drop_left]
  · intro env raw hup hbad
    have hres : resolveAudioUrl raw =
        Except.error "Invalid URL format - AudioShake requires HTTPS URLs" := by
      unfold resolveAudioUrl
      rw [if_neg (by simp [hbad])]
    cases hc : env.convertResult with
    | error m =>
      have hm : mainPipeline env = ⟨1, [Stage.convert]⟩ := by simp [mainPipeline, hc]
      rw [hm]
      exact ⟨rfl, by decide⟩
    | ok wav =>
      have hm : mainPipeline env = ⟨1, [Stage.convert, Stage.upload]⟩ := by
        simp [mainPipeline, hc, hup, hres]
      rw [hm]
      exact ⟨rfl, by decide⟩

/-- Claim C8, witness: a concrete `http://` URL is upgraded with its tail
intact, and a concrete `ftp://` upload URL makes the run exit 1 without
reaching stem separation. -/
theorem c8_witness :
    upgradeHttp (js "http://" ++ js "host.example/song.wav") =
      js "https://" ++ js "host.example/song.wav" ∧
    (mainPipeline envFtpUrl).exitCode = 1 ∧
    Stage.separate ∉ (mainPipeline envFtpUrl).stages :=
  ⟨c8_url_upgrade.1 (js "host.example/song.wav"),
   c8_url_upgrade.2 envFtpUrl (js "ftp://host.example/song.wav") rfl (by decide)⟩

/-! Claim C6. -/

/-- Invariant of the polling loop against the `procThenDone n` service
(with instantaneous GETs): starting at poll index `i` with elapsed
`pollIntervalMs * i` and fuel for the remaining `n - i + 1` polls, the loop
ends with the single stem after poll `n + 1`, at elapsed
`pollIntervalMs * (n + 1)`.  The bound `n ≤ 120` keeps every `processing`
poll within the 600 s budget. -/
theorem procThenDone_loop (n : Nat) (stem : StemResult) (hn : n ≤ 120) :
    ∀ d i, i + d = n →
      pollLoop (procThenDone n stem) (d + 1) i (pollIntervalMs * i) =
        some ⟨.ok [stem], n + 1, pollIntervalMs * (n + 1)⟩ := by
  intro d
  induction d with
  | zero =>
    intro i hi
    have hi2 : i = n := by omega
    subst hi2
    rw [pollLoop_succ]
    simp [procThenDone, pollStep, pollIntervalMs]
    omega
  | succ dd ih =>
    intro i hi
    have hilt : i < n := by omega
    rw [pollLoop_succ]
    have hresp : procThenDone n stem i = processingResponse := by
      simp [procThenDone, hilt]
    rw [hresp]
    have hto : pollStep processingResponse
        (pollIntervalMs * i + pollIntervalMs + processingResponse.fetchMs) = .again := by
      have hb : ¬ (timeoutMs < pollIntervalMs * i + pollIntervalMs) := by
        simp only [pollIntervalMs, timeoutMs]
        omega
      simp [pollStep, processingResponse, hb]
    rw [hto]
    have harith : pollIntervalMs * i + pollIntervalMs + processingResponse.fetchMs =
        pollIntervalMs * (i + 1) := by
      simp only [processingResponse, pollIntervalMs]
      ring
    rw [harith]
    exact ih (i + 1) (by omega)

/-- Claim C6, counterexample: with `N = 121` the claimed behaviour fails —
the service answers `processing` 121 times then `completed` with one stem,
but the 600 s budget expires at the 121st poll (elapsed 605000 ms), so
`separateStems` ends with `SeparationTimeout` after 121 polls instead of
returning the stem after 122 polls. -/
theorem c6_counterexample :
    separateStems (js "https://host.example/song.wav") "key"
      (svcProcThenDone 121 stemVocals) 122 =
      some ⟨.err .separationTimeout, 1, 121, 605000⟩ := by
  decide

/-- Claim C6 (amended): for every `N ≤ 120`, against a service that
returns `processing` N times and then `completed` with one stem result
(each GET instantaneous), `separateStems` returns exactly that stem result
after `N + 1` polls, at elapsed time `5000 · (N + 1)` ms — a fixed 5 s
delay before every poll — hence having waited at least `5000 · N` ms; for
larger `N` the 600 s budget expires first (see the counterexample). -/
theorem c6_amended (n : Nat) (stem : StemResult) (hn : n ≤ 120) :
    separateStems (js "https://host.example/song.wav") "key"
      (svcProcThenDone n stem) (n + 1) =
      some ⟨.ok [stem], 1, n + 1, pollIntervalMs * (n + 1)⟩ ∧
    pollIntervalMs * n ≤ pollIntervalMs * (n + 1) := by
  constructor
  · have hloop := procThenDone_loop n stem hn n 0 (by omega)
    rw [Nat.mul_zero] at hloop
    have hurl : jsStartsWith (js "https://host.example/song.wav") (js "https://") = true := by
      decide
    unfold separateStems
    rw [if_pos hurl]
    have hok : (svcProcThenDone n stem).create.ok = true := rfl
    rw [if_pos hok]
    have hrespond : (svcProcThenDone n stem).respond = procThenDone n stem := rfl
    rw [hrespond, hloop]
  · have : n ≤ n + 1 := by omega
    exact Nat.mul_le_mul_left pollIntervalMs this

/-- Claim C6, witness: the amended statement at `N = 3`: three
`processing` polls, then the stem is returned at the fourth poll, 20000 ms
after submission. -/
theorem c6_witness :
    separateStems (js "https://host.example/song.wav") "key"
      (svcProcThenDone 3 stemVocals) 4 =
      some ⟨.ok [stemVocals], 1, 4, pollIntervalMs * 4⟩ ∧
    pollIntervalMs * 3 ≤ pollIntervalMs * 4 :=
  c6_amended 3 stemVocals (by omega)

/-! Claim C9. -/

/-- Claim C9 (confirmed): `isSupportedAudioFile` returns true exactly for
the file paths whose extension, compared case-insensitively, is one of
mp3, wav, flac, aac, ogg, m4a, wma, aiff, alac, opus — and false for every
other path. -/
theorem c9_supported_extensions (filePath : JSString) :
    isSupportedAudioFile filePath = true ↔ specExtensionSupported filePath := by
  unfold isSupportedAudioFile specExtensionSupported
  rw [decide_eq_true_eq]
  constructor
  · intro h
    simp only [SUPPORTED_AUDIO_EXTENSIONS, List.mem_cons, List.not_mem_nil, or_false] at h
    rcases h with h | h | h | h | h | h | h | h | h | h
    · exact ⟨js "mp3", by simp [specSupportedNames], by rw [h]; decide⟩
    · exact ⟨js "wav", by simp [specSupportedNames], by rw [h]; decide⟩
    · exact ⟨js "flac", by simp [specSupportedNames], by rw [h]; decide⟩
    · exact ⟨js "aac", by simp [specSupportedNames], by rw [h]; decide⟩
    · exact ⟨js "ogg", by simp [specSupportedNames], by rw [h]; decide⟩
    · exact ⟨js "m4a", by simp [specSupportedNames], by rw [h]; decide⟩
    · exact ⟨js "wma", by simp [specSupportedNames], by rw [h]; decide⟩
    · exact ⟨js "aiff", by simp [specSupportedNames], by rw [h]; decide⟩
    · exact ⟨js "alac", by simp [specSupportedNames], by rw [h]; decide⟩
    · exact ⟨js "opus", by simp [specSupportedNames], by rw [h]; decide⟩
  · rintro ⟨e, he, hx⟩
    simp only [specSupportedNames, List.mem_cons, List.not_mem_nil, or_false] at he
    rcases he with rfl | rfl | rfl | rfl | rfl | rfl | rfl | rfl | rfl | rfl
    all_goals rw [hx]
    all_goals decide

/-- Claim C9, witness: concrete evaluations — an upper-case `MP3`
extension is accepted, a `.txt` file and an extensionless dotfile are
rejected. -/
theorem c9_witness :
    isSupportedAudioFile (js "Song.MP3") = true ∧
    specExtensionSupported (js "Song.MP3") ∧
    isSupportedAudioFile (js "notes.txt") = false :=
  ⟨by decide, (c9_supported_extensions (js "Song.MP3")).mp (by decide), by decide⟩

/-! Claim C10. -/

/-- Every terminating run of the polling loop issued its polls strictly
after `i`, and waited the full poll interval before each of them:
the final elapsed time is at least the starting elapsed time plus
`pollIntervalMs` per poll performed. -/
theorem pollLoop_elapsed_lower (respond : Nat → PollResponse) :
    ∀ (fuel i elapsed : Nat) (lr : LoopResult),
      pollLoop respond fuel i elapsed = some lr →
      i < lr.polls ∧ elapsed + pollIntervalMs * (lr.polls - i) ≤ lr.elapsedMs := by
  intro fuel
  induction fuel with
  | zero =>
    intro i e lr h
    rw [pollLoop_zero] at h
    exact absurd h (by simp)
  | succ f ih =>
    intro i e lr h
    rw [pollLoop_succ] at h
    cases hstep : pollStep (respond i) (e + pollIntervalMs + (respond i).fetchMs) with
    | done out =>
      rw [hstep] at h
      simp only [Option.some.injEq] at h
      subst h
      simp only [pollIntervalMs]
      omega
    | again =>
      rw [hstep] at h
      have hrec := ih (i + 1) (e + pollIntervalMs + (respond i).fetchMs) lr h
      simp only [pollIntervalMs] at hrec ⊢
      omega

/-- Claim C10 (confirmed): every iteration of the polling loop waits the
full 5 s interval before its GET — including the first — so a terminating
loop's elapsed time is at least `pollIntervalMs` per poll issued, and any
`separateStems` run that issued at least one GET (every success and every
poll-derived error does) ends no earlier than `pollIntervalMs` ms after
submission, even when the very first poll already reports `completed`. -/
theorem c10_poll_delay :
    (∀ (respond : Nat → PollResponse) (fuel i elapsed : Nat) (lr : LoopResult),
      pollLoop respond fuel i elapsed = some lr →
      i < lr.polls ∧ elapsed + pollIntervalMs * (lr.polls - i) ≤ lr.elapsedMs) ∧
    (∀ (audioUrl : JSString) (apiKey : String) (svc : MockService) (fuel : Nat)
      (r : RunResult),
      separateStems audioUrl apiKey svc fuel = some r →
      r.gets = 0 ∨ (0 < r.gets ∧ pollIntervalMs * r.gets ≤ r.elapsedMs)) := by
  refine ⟨pollLoop_elapsed_lower, ?_⟩
  intro audioUrl apiKey svc fuel r h
  unfold separateStems at h
  by_cases h1 : jsStartsWith audioUrl (js "https://") = true
  · rw [if_pos h1] at h
    by_cases h2 : svc.create.ok = true
    · rw [if_pos h2] at h
      cases hl : pollLoop svc.respond fuel 0 0 with
      | none =>
        rw [hl] at h
        exact absurd h (by simp)
      | some lr =>
        rw [hl] at h
        simp only [Option.some.injEq] at h
        subst h
        have hlow := pollLoop_elapsed_lower svc.respond fuel 0 0 lr hl
        right
        simp only [pollIntervalMs] at hlow ⊢
        omega
    · rw [if_neg h2] at h
      simp only [Option.some.injEq] at h
      subst h
      left
      rfl
  · rw [if_neg h1] at h
    simp only [Option.some.injEq] at h
    subst h
    left
    rfl

/-- Claim C10, witness: a task that is already `completed` with one stem at
the first poll still takes a full 5000 ms: the run returns after exactly
one GET at elapsed 5000 ms, and the general bound instantiates to it. -/
theorem c10_witness :
    separateStems (js "https://host.example/song.wav") "key" svcImmediate 1 =
      some ⟨.ok [stemVocals], 1, 1, 5000⟩ ∧
    ((⟨.ok [stemVocals], 1, 1, 5000⟩ : RunResult).gets = 0 ∨
      (0 < (⟨.ok [stemVocals], 1, 1, 5000⟩ : RunResult).gets ∧
        pollIntervalMs * (⟨.ok [stemVocals], 1, 1, 5000⟩ : RunResult).gets ≤
          (⟨.ok [stemVocals], 1, 1, 5000⟩ : RunResult).elapsedMs)) :=
  ⟨by decide,
   c10_poll_delay.2 (js "https://host.example/song.wav") "key" svcImmediate 1
     ⟨.ok [stemVocals], 1, 1, 5000⟩ (by decide)⟩

end Dolly
